import Mathlib

/-!
Verification of the Moab hat communication layer (`sw/hat.py`).

The Python module is shallowly embedded as executable Lean definitions:

* Python `int` is `ℤ`, Python `float` arithmetic on the source's decimal
  literals is idealized as exact rational arithmetic on `ℚ`.
* A numpy `int8` cast wraps its argument into `[-128, 127]` modulo 256
  (`int8OfInt`); a float→int8 cast first truncates toward zero (`ratTrunc`).
* Fallible Python operations return `Except PyErr`: `pyIndex` models list
  indexing (`IndexError`), `pyAdd` models `+` on list/bytes values
  (`TypeError` on a mixed concatenation), `right_pad_array` models the
  `ValueError` raise, and the `assert` in `print_arbitrary_string` raises
  `assertionError`.  In the spec's error taxonomy the `ValueError` of
  `right_pad_array` is `FrameTooLong` and the `assert` is `MessageTooLong`.
* Side effects of an operation are recorded as an `Event` trace:
  `Event.sleep n` is `time.sleep` of `n` microseconds and `Event.xfer f` is
  `spi.xfer(f)`, where `f` is the 9-byte frame exactly as `packet.tolist()`
  hands it to the bus (numpy int8 values, i.e. signed two's-complement form).
* The 9-byte reply read back by `spi.xfer` is passed in explicitly as a
  `List ℕ` of unsigned bytes (a `bus : ℕ → List ℕ` oracle for the
  multi-exchange display protocol).
-/

/-- Python runtime errors raised by the embedded code. -/
inductive PyErr
  | typeError
  | valueError
  | indexError
  | assertionError
deriving DecidableEq

/-- A Python value that is either a `list` of ints or a `bytes` object,
as needed by `print_arbitrary_string`. -/
inductive PyVal
  | list (l : List ℤ)
  | bytes (b : List ℕ)
deriving DecidableEq

/-- Python `+` on list/bytes values: `list + list` and `bytes + bytes`
concatenate; the mixed cases raise `TypeError` (in CPython,
`list.__add__(bytes)` is `NotImplemented` and `bytes` has no `__radd__`). -/
def pyAdd : PyVal → PyVal → Except PyErr PyVal
  | .list a, .list b => .ok (.list (a ++ b))
  | .bytes a, .bytes b => .ok (.bytes (a ++ b))
  | .list _, .bytes _ => .error .typeError
  | .bytes _, .list _ => .error .typeError

/-- Python list indexing `l[i]` for `0 ≤ i`: `IndexError` past the end. -/
def pyIndex : List α → ℕ → Except PyErr α
  | [], _ => .error .indexError
  | x :: _, 0 => .ok x
  | _ :: xs, n + 1 => pyIndex xs n

/-- View a `PyVal` as the list of ints a later numpy cast would see. -/
def PyVal.toIntList : PyVal → List ℤ
  | .list l => l
  | .bytes b => b.map Int.ofNat

-- Opcodes sent from the Pi to the hat (`class SendCommand(IntEnum)`).

namespace SendCommand

def NOOP : ℤ := 0x00

def SERVO_ENABLE : ℤ := 0x01

def SERVO_DISABLE : ℤ := 0x02

def CONTROL_INFO : ℤ := 0x03

def SET_PLATE_ANGLES : ℤ := 0x04

def SET_SERVOS : ℤ := 0x05

def TEXT_ICON_SELECT : ℤ := 0x06

def DISPLAY_BUFFER : ℤ := 0x07

def ARBITRARY_MESSAGE : ℤ := 0x80

end SendCommand

-- Reply byte 0 codes (`class Button(IntEnum)`), compared against the
-- unsigned byte received from the hat.

namespace Button

def MENU : ℕ := 1

def JOYSTICK : ℕ := 2

end Button

-- Reply byte positions of the joystick axes (`class JoystickByteIndex`).

namespace JoystickByteIndex

def X : ℕ := 1

def Y : ℕ := 2

end JoystickByteIndex

/-- `X_TILT_SERVO1 = -0.5` from the source. -/
def X_TILT_SERVO1 : ℚ := -0.5

/-- `Y_TILT_SERVO2 = 0.866` from the source. -/
def Y_TILT_SERVO2 : ℚ := 0.866

/-- `Y_TILT_SERVO3 = -0.866` from the source. -/
def Y_TILT_SERVO3 : ℚ := -0.866

/-- `_uint8_to_int8(b)`: `b if b < 128 else (-256 + b)`. -/
def _uint8_to_int8 (b : ℕ) : ℤ :=
  if b < 128 then b else -256 + b

/-- A numpy `int8` cast of an integer: wrap modulo 256 into `[-128, 127]`. -/
def int8OfInt (z : ℤ) : ℤ :=
  (z + 128) % 256 - 128

/-- C truncation of a rational toward zero, as a float→int cast performs. -/
def ratTrunc (q : ℚ) : ℤ :=
  Int.tdiv q.num q.den

/-- A numpy `int8` cast of a Python float: truncate toward zero, then wrap. -/
def ratToInt8 (q : ℚ) : ℤ :=
  int8OfInt (ratTrunc q)

/-- `right_pad_array(arr, length, dtype=np.int8)`: below 9 elements,
`np.zeros(length, dtype)` followed by `padded_arr[:len_arr] = arr`, which
casts every element to int8 and leaves the tail zero; at exactly 9
elements, `np.asarray(arr)` returns the input unchanged (no cast); above 9
elements, `ValueError` is raised. -/
def right_pad_array (arr : List ℤ) (length : ℕ) : Except PyErr (List ℤ) :=
  if arr.length < 9 then
    .ok (arr.map int8OfInt ++ List.replicate (length - arr.length) 0)
  else if arr.length = 9 then
    .ok arr
  else
    .error .valueError

/-- `_xy_offsets(x, y, servo_offsets)` over exact rationals. -/
def _xy_offsets (x y : ℚ) (servo_offsets : ℤ × ℤ × ℤ) : ℚ × ℚ :=
  let so_1 : ℤ := servo_offsets.1
  let so_2 : ℤ := servo_offsets.2.1
  let so_3 : ℤ := servo_offsets.2.2
  (x + so_1 + X_TILT_SERVO1 * so_2 + X_TILT_SERVO1 * so_3,
   y + Y_TILT_SERVO2 * so_2 + Y_TILT_SERVO3 * so_3)

/-- The mutable state of a `Hat` object: the calibration offsets and the
button/joystick fields written by `_save_buttons`. -/
structure HatState where
  servo_offsets : ℤ × ℤ × ℤ
  menu_btn : Bool
  joy_btn : Bool
  joy_x : ℚ
  joy_y : ℚ
deriving DecidableEq

/-- `Hat.__init__`: offsets from the argument, both buttons `False`,
joystick at `(0, 0)`. -/
def initHat (servo_offsets : ℤ × ℤ × ℤ) : HatState :=
  { servo_offsets := servo_offsets
    menu_btn := false
    joy_btn := false
    joy_x := 0
    joy_y := 0 }

/-- One observable side effect of a hat operation: a blocking delay in
microseconds, or a full-duplex 9-byte bus transfer of a frame. -/
inductive Event
  | sleep (usec : ℕ)
  | xfer (frame : List ℤ)
deriving DecidableEq

/-- `Hat._save_buttons(hat_to_pi)`: byte 0 classifies the buttons, bytes at
`JoystickByteIndex.X`/`.Y` are decoded as signed and divided by 100. -/
def _save_buttons (h : HatState) (hat_to_pi : List ℕ) : Except PyErr HatState :=
  match pyIndex hat_to_pi 0, pyIndex hat_to_pi JoystickByteIndex.X,
        pyIndex hat_to_pi JoystickByteIndex.Y with
  | .ok b0, .ok bx, .ok b_y =>
    .ok { h with
          menu_btn := b0 == Button.MENU
          joy_btn := b0 == Button.JOYSTICK
          joy_x := (_uint8_to_int8 bx : ℚ) / 100
          joy_y := (_uint8_to_int8 b_y : ℚ) / 100 }
  | .error e, _, _ => .error e
  | _, .error e, _ => .error e
  | _, _, .error e => .error e

/-- `Hat.trancieve(packet)`: pad the packet to a 9-byte frame (or raise),
sleep 1 ms, transfer the frame, and decode the 9-byte reply `hat_to_pi`
into the button state.  Returns the emitted event trace alongside the
result; a raise before the transfer emits nothing. -/
def trancieve (h : HatState) (hat_to_pi : List ℕ) (packet : List ℤ) :
    List Event × Except PyErr HatState :=
  match right_pad_array packet 9 with
  | .error e => ([], .error e)
  | .ok frame =>
    match _save_buttons h hat_to_pi with
    | .ok h' => ([Event.sleep 1000, Event.xfer frame], .ok h')
    | .error e => ([Event.sleep 1000, Event.xfer frame], .error e)

/-- `Hat.poll_buttons()`: return the last-decoded button/joystick state. -/
def poll_buttons (h : HatState) : Bool × Bool × ℚ × ℚ :=
  (h.menu_btn, h.joy_btn, h.joy_x, h.joy_y)

/-- Append the 50 ms actuator settle sleep after a successful transfer
(`time.sleep(0.05)`); an exception skips it. -/
def afterSettle : List Event × Except PyErr HatState →
    List Event × Except PyErr HatState
  | (ev, .ok h) => (ev ++ [Event.sleep 50000], .ok h)
  | (ev, .error e) => (ev, .error e)

/-- `Hat.set_angles(plate_x_deg, plate_y_deg)`: apply `_xy_offsets`, build
`np.array([SET_PLATE_ANGLES, plate_x, plate_y], dtype=np.int8)`, exchange
it, then sleep 50 ms. -/
def set_angles (h : HatState) (hat_to_pi : List ℕ)
    (plate_x_deg plate_y_deg : ℤ) : List Event × Except PyErr HatState :=
  let p := _xy_offsets (plate_x_deg : ℚ) (plate_y_deg : ℚ) h.servo_offsets
  afterSettle (trancieve h hat_to_pi
    [int8OfInt SendCommand.SET_PLATE_ANGLES, ratToInt8 p.1, ratToInt8 p.2])

/-- `Hat.set_servos(servo1, servo2, servo3)`: build
`np.array([SET_SERVOS, servo1, servo2, servo3], dtype=np.int8)` — the
offsets are not consulted (that application is commented out) — exchange
it, then sleep 50 ms. -/
def set_servos (h : HatState) (hat_to_pi : List ℕ)
    (servo1 servo2 servo3 : ℤ) : List Event × Except PyErr HatState :=
  afterSettle (trancieve h hat_to_pi
    [int8OfInt SendCommand.SET_SERVOS, int8OfInt servo1, int8OfInt servo2,
     int8OfInt servo3])

/-- `Hat.set_servo_offsets(servo1, servo2, servo3)`: pure local mutation,
no bus traffic. -/
def set_servo_offsets (h : HatState) (servo1 servo2 servo3 : ℤ) : HatState :=
  { h with servo_offsets := (servo1, servo2, servo3) }

/-- `str.upper()` followed by UTF-8 encoding, on the bytes of an ASCII
string: each lowercase ASCII letter is shifted to its uppercase form. -/
def asciiUpper (c : ℕ) : ℕ :=
  if 97 ≤ c ∧ c ≤ 122 then c - 32 else c

/-- The chunk loop of `print_arbitrary_string`: for each `msg_idx`, build
`[SendCommand.ARBITRARY_MESSAGE] + s[8*msg_idx : 8*msg_idx + 8]` — a
Python list/bytes concatenation — and exchange it.  Recursion is on the
number of remaining chunks. -/
def chunkLoop (bus : ℕ → List ℕ) (s : List ℕ) :
    ℕ → ℕ → HatState → List Event × Except PyErr HatState
  | _, 0, h => ([], .ok h)
  | msg_idx, remaining + 1, h =>
    match pyAdd (PyVal.list [SendCommand.ARBITRARY_MESSAGE])
        (PyVal.bytes ((s.drop (8 * msg_idx)).take 8)) with
    | .error e => ([], .error e)
    | .ok v =>
      match trancieve h (bus msg_idx) v.toIntList with
      | (ev, .ok h') =>
        match chunkLoop bus s (msg_idx + 1) remaining h' with
        | (ev', res) => (ev ++ ev', res)
      | (ev, .error e) => (ev, .error e)

/-- `Hat.print_arbitrary_string(s)` on the bytes of an ASCII string:
uppercase, append one null terminator, `assert len(s) <= 256`, pad with
nulls to `ceil(len/8)` 8-byte chunks, exchange each chunk, then exchange
the `DISPLAY_BUFFER` frame. -/
def print_arbitrary_string (h : HatState) (bus : ℕ → List ℕ)
    (input : List ℕ) : List Event × Except PyErr HatState :=
  let s := input.map asciiUpper ++ [0]
  if 256 < s.length then ([], .error .assertionError)
  else
    let num_msgs := (s.length + 7) / 8
    let s2 := s ++ List.replicate (num_msgs * 8 - s.length) 0
    match chunkLoop bus s2 0 num_msgs h with
    | (ev, .ok h') =>
      match trancieve h' (bus num_msgs) [SendCommand.DISPLAY_BUFFER] with
      | (ev2, res) => (ev ++ ev2, res)
    | (ev, .error e) => (ev, .error e)

/-- The hat states reachable from construction: the initial state, the
result of decoding any successful exchange, and offset recalibration. -/
inductive Reachable : HatState → Prop
  | init : ∀ off, Reachable (initHat off)
  | exchange : ∀ {h h' : HatState} (r : List ℕ),
      Reachable h → _save_buttons h r = .ok h' → Reachable h'
  | calibrate : ∀ {h : HatState} (s1 s2 s3 : ℤ),
      Reachable h → Reachable (set_servo_offsets h s1 s2 s3)

/-- The hat state right after an exchange whose reply starts with the
`MENU` code: the concrete state used to exhibit a reachable state. -/
def stateAfterMenu : HatState :=
  { servo_offsets := (0, 0, 0)
    menu_btn := true
    joy_btn := false
    joy_x := (_uint8_to_int8 0 : ℚ) / 100
    joy_y := (_uint8_to_int8 0 : ℚ) / 100 }

-- Helper lemmas ---------------------------------------------------------------

/-- An int8 cast is the identity on values already in `[-128, 127]`. -/
lemma int8OfInt_eq_self {z : ℤ} (h1 : -128 ≤ z) (h2 : z ≤ 127) :
    int8OfInt z = z := by
  unfold int8OfInt; omega

/-- Casting an integer-valued rational to int8 wraps the integer. -/
lemma ratToInt8_intCast (z : ℤ) : ratToInt8 (z : ℚ) = int8OfInt z := by
  simp [ratToInt8, ratTrunc, Rat.num_intCast, Rat.den_intCast, Int.tdiv_one]

/-- Mapping the int8 cast over a list of in-range values is the identity. -/
lemma map_int8OfInt_eq_self {l : List ℤ}
    (hl : ∀ x ∈ l, -128 ≤ x ∧ x ≤ 127) : l.map int8OfInt = l := by
  induction l with
  | nil => rfl
  | cons a t ih =>
    have ha := hl a (by simp)
    simp only [List.map_cons, int8OfInt_eq_self ha.1 ha.2, List.cons.injEq,
      true_and]
    exact ih fun x hx => hl x (by simp [hx])

/-- A frame produced by `right_pad_array` at target length 9 has 9 bytes. -/
lemma right_pad_array_length {p f : List ℤ}
    (hok : right_pad_array p 9 = .ok f) : f.length = 9 := by
  unfold right_pad_array at hok
  split at hok
  · rename_i hlt
    injection hok with hf
    subst hf
    simp only [List.length_append, List.length_map, List.length_replicate]
    omega
  · split at hok
    · rename_i hne heq
      injection hok with hf
      subst hf
      omega
    · exact absurd hok (by simp)

/-- `_save_buttons` on a reply of at least three bytes decodes it. -/
lemma save_buttons_cons (h : HatState) (b0 b1 b2 : ℕ) (rest : List ℕ) :
    _save_buttons h (b0 :: b1 :: b2 :: rest) =
      .ok { h with
            menu_btn := b0 == Button.MENU
            joy_btn := b0 == Button.JOYSTICK
            joy_x := (_uint8_to_int8 b1 : ℚ) / 100
            joy_y := (_uint8_to_int8 b2 : ℚ) / 100 } := rfl

/-- `set_angles` unfolded to its packet construction and exchange. -/
lemma set_angles_def (h : HatState) (r : List ℕ) (x y : ℤ) :
    set_angles h r x y = afterSettle (trancieve h r
      [int8OfInt SendCommand.SET_PLATE_ANGLES,
       ratToInt8 (_xy_offsets (x : ℚ) (y : ℚ) h.servo_offsets).1,
       ratToInt8 (_xy_offsets (x : ℚ) (y : ℚ) h.servo_offsets).2]) := rfl

/-- `set_servos` unfolded to its packet construction and exchange. -/
lemma set_servos_def (h : HatState) (r : List ℕ) (s1 s2 s3 : ℤ) :
    set_servos h r s1 s2 s3 = afterSettle (trancieve h r
      [int8OfInt SendCommand.SET_SERVOS, int8OfInt s1, int8OfInt s2,
       int8OfInt s3]) := rfl

/-- A successful `_save_buttons` sets each button flag to the comparison of
reply byte 0 with that button's code. -/
lemma save_buttons_flags {h h' : HatState} {r : List ℕ}
    (hok : _save_buttons h r = .ok h') :
    h'.menu_btn = (r.getD 0 0 == 1) ∧ h'.joy_btn = (r.getD 0 0 == 2) := by
  rcases r with _ | ⟨b0, _ | ⟨b1, _ | ⟨b2, rest⟩⟩⟩
  · exact absurd hok (by simp [_save_buttons, pyIndex])
  · exact absurd hok (by simp [_save_buttons, pyIndex, JoystickByteIndex.X])
  · exact absurd hok (by simp [_save_buttons, pyIndex, JoystickByteIndex.X,
      JoystickByteIndex.Y])
  · rw [save_buttons_cons] at hok
    injection hok with hh
    subst hh
    exact ⟨rfl, rfl⟩

-- Claim theorems --------------------------------------------------------------

/-- Claim C6: the offset geometry computes exactly
`x' = x + o1 + (-0.5)*o2 + (-0.5)*o3` and `y' = y + 0.866*o2 + (-0.866)*o3`,
and with offsets `(0, 0, 0)` the computed pair equals `(x, y)` exactly. -/
theorem xy_offsets_formula_C6 :
    ∀ (x y : ℚ) (o1 o2 o3 : ℤ),
      _xy_offsets x y (o1, o2, o3) =
        (x + o1 + (-0.5) * o2 + (-0.5) * o3,
         y + 0.866 * o2 + (-0.866) * o3) ∧
      _xy_offsets x y (0, 0, 0) = (x, y) := by
  intro x y o1 o2 o3
  constructor
  · rfl
  · simp only [_xy_offsets, X_TILT_SERVO1, Y_TILT_SERVO2, Y_TILT_SERVO3,
      Prod.mk.injEq]
    constructor <;> push_cast <;> ring

/-- Claim C10: on a freshly constructed `Hat`, `poll_buttons` returns
`(False, False, 0, 0)`, for any servo offsets. -/
theorem poll_buttons_fresh_C10 :
    ∀ off : ℤ × ℤ × ℤ, poll_buttons (initHat off) = (false, false, 0, 0) := by
  intro off
  rfl

/-- Claim C5: for a packet of at most 9 bytes the codec produces exactly the
9-byte frame that preserves the supplied bytes and zero-fills the tail (so a
packet of exactly 9 bytes passes through unchanged), and every frame that
`trancieve` hands to `spi.xfer` has exactly 9 bytes. -/
theorem frame_padding_C5 :
    (∀ p : List ℤ, p.length ≤ 9 → (∀ x ∈ p, -128 ≤ x ∧ x ≤ 127) →
      right_pad_array p 9 = .ok (p ++ List.replicate (9 - p.length) 0)) ∧
    (∀ (h : HatState) (r : List ℕ) (p f : List ℤ),
      Event.xfer f ∈ (trancieve h r p).1 → f.length = 9) := by
  constructor
  · intro p hlen hrange
    unfold right_pad_array
    rcases lt_or_eq_of_le hlen with hlt | heq
    · rw [if_pos hlt, map_int8OfInt_eq_self hrange]
    · rw [if_neg (by omega), if_pos heq, heq]
      simp
  · intro h r p f hmem
    unfold trancieve at hmem
    rcases hpad : right_pad_array p 9 with e | frame
    · rw [hpad] at hmem
      simp at hmem
    · rw [hpad] at hmem
      have hf : f = frame := by
        rcases hsb : _save_buttons h r with e | h' <;> rw [hsb] at hmem <;>
          simpa using hmem
      rw [hf]
      exact right_pad_array_length hpad

/-- Witness for C5 at a concrete 3-byte packet. -/
theorem frame_padding_C5_witness :
    right_pad_array [4, 12, -5] 9 = .ok [4, 12, -5, 0, 0, 0, 0, 0, 0] ∧
    ∀ f : List ℤ, Event.xfer f ∈
      (trancieve (initHat (0, 0, 0)) [0, 0, 0, 0, 0, 0, 0, 0, 0] [4, 12, -5]).1 →
      f.length = 9 := by
  constructor
  · exact frame_padding_C5.1 [4, 12, -5] (by decide) (by decide)
  · intro f hf
    exact frame_padding_C5.2 (initHat (0, 0, 0)) [0, 0, 0, 0, 0, 0, 0, 0, 0]
      [4, 12, -5] f hf

/-- Claim C4: a packet longer than 9 bytes (payload over 8 bytes) makes the
codec fail with the frame-too-long `ValueError`, and `trancieve` then
performs no bus transfer at all. -/
theorem frame_too_long_C4 :
    ∀ p : List ℤ, 9 < p.length →
      right_pad_array p 9 = .error .valueError ∧
      ∀ (h : HatState) (r : List ℕ), trancieve h r p = ([], .error .valueError) := by
  intro p hlen
  have hpad : right_pad_array p 9 = .error .valueError := by
    unfold right_pad_array
    rw [if_neg (by omega), if_neg (by omega)]
  refine ⟨hpad, ?_⟩
  intro h r
  unfold trancieve
  rw [hpad]

/-- Witness for C4 at a concrete 10-byte packet. -/
theorem frame_too_long_C4_witness :
    right_pad_array [0, 1, 2, 3, 4, 5, 6, 7, 8, 9] 9 = .error .valueError ∧
    trancieve (initHat (0, 0, 0)) [0, 0, 0, 0, 0, 0, 0, 0, 0]
      [0, 1, 2, 3, 4, 5, 6, 7, 8, 9] = ([], .error .valueError) := by
  have := frame_too_long_C4 [0, 1, 2, 3, 4, 5, 6, 7, 8, 9] (by decide)
  exact ⟨this.1, this.2 (initHat (0, 0, 0)) [0, 0, 0, 0, 0, 0, 0, 0, 0]⟩

/-- Claim C3: when the byte length after uppercasing and appending the null
terminator exceeds 256, `print_arbitrary_string` fails on its length
assertion (the spec's `MessageTooLong`) and transmits nothing. -/
theorem message_too_long_C3 :
    ∀ (h : HatState) (bus : ℕ → List ℕ) (input : List ℕ),
      256 < input.length + 1 →
      print_arbitrary_string h bus input = ([], .error .assertionError) := by
  intro h bus input hlen
  unfold print_arbitrary_string
  rw [if_pos]
  simp only [List.length_append, List.length_map, List.length_cons,
    List.length_nil]
  omega

/-- Witness for C3: a 300-character string fails before any bus exchange. -/
theorem message_too_long_C3_witness :
    print_arbitrary_string (initHat (0, 0, 0)) (fun _ => List.replicate 9 0)
      (List.replicate 300 72) = ([], .error .assertionError) :=
  message_too_long_C3 (initHat (0, 0, 0)) (fun _ => List.replicate 9 0)
    (List.replicate 300 72) (by rw [List.length_replicate]; omega)

/-- Claim C1 (divergence): `print_arbitrary_string` on the bytes of `"hi"`
raises `TypeError` at the first chunk — the source concatenates a Python
list with a bytes slice — before any bus exchange, for every hat state and
every bus reply; no chunk frame and no flip frame is transmitted. -/
theorem show_text_hi_type_error_C1 :
    ∀ (h : HatState) (bus : ℕ → List ℕ),
      print_arbitrary_string h bus [104, 105] = ([], .error .typeError) := by
  intro h bus
  rfl

/-- Claim C2: `set_angles(10, -5)` with servo offsets `(2, 0, 0)` and any
9-byte reply performs exactly the 1 ms pre-delay, one transfer of the frame
`[SET_PLATE_ANGLES, 12, -5, 0, 0, 0, 0, 0, 0]`, and then blocks for the
50 ms actuator settle delay before returning. -/
theorem set_angles_scenario_C2 :
    ∀ r : List ℕ, r.length = 9 →
      (set_angles (initHat (2, 0, 0)) r 10 (-5)).1 =
        [Event.sleep 1000, Event.xfer [4, 12, -5, 0, 0, 0, 0, 0, 0],
         Event.sleep 50000] := by
  intro r hr
  obtain ⟨b0, b1, b2, rest, rfl⟩ :
      ∃ b0 b1 b2 rest, r = b0 :: b1 :: b2 :: rest := by
    match r, hr with
    | a :: b :: c :: t, _ => exact ⟨a, b, c, t, rfl⟩
  have hs : (initHat (2, 0, 0)).servo_offsets = (2, 0, 0) := rfl
  have hxy : _xy_offsets ((10 : ℤ) : ℚ) (((-5) : ℤ) : ℚ) (2, 0, 0) =
      (((12 : ℤ) : ℚ), (((-5) : ℤ) : ℚ)) := by
    simp only [_xy_offsets, X_TILT_SERVO1, Y_TILT_SERVO2, Y_TILT_SERVO3,
      Prod.mk.injEq]
    constructor <;> push_cast <;> ring
  have h1 : ratToInt8 ((12 : ℤ) : ℚ) = 12 := by
    rw [ratToInt8_intCast]; decide
  have h2 : ratToInt8 (((-5) : ℤ) : ℚ) = -5 := by
    rw [ratToInt8_intCast]; decide
  have h0 : int8OfInt SendCommand.SET_PLATE_ANGLES = 4 := by decide
  have hpad : right_pad_array [4, 12, -5] 9 =
      .ok [4, 12, -5, 0, 0, 0, 0, 0, 0] := rfl
  rw [set_angles_def, hs, hxy]
  show (afterSettle (trancieve (initHat (2, 0, 0)) (b0 :: b1 :: b2 :: rest)
    [int8OfInt SendCommand.SET_PLATE_ANGLES, ratToInt8 ((12 : ℤ) : ℚ),
     ratToInt8 (((-5) : ℤ) : ℚ)])).1 = _
  rw [h0, h1, h2]
  simp only [trancieve, hpad, save_buttons_cons, afterSettle]
  rfl

/-- Witness for C2 at the all-zero 9-byte reply. -/
theorem set_angles_scenario_C2_witness :
    (set_angles (initHat (2, 0, 0)) [0, 0, 0, 0, 0, 0, 0, 0, 0] 10 (-5)).1 =
      [Event.sleep 1000, Event.xfer [4, 12, -5, 0, 0, 0, 0, 0, 0],
       Event.sleep 50000] :=
  set_angles_scenario_C2 [0, 0, 0, 0, 0, 0, 0, 0, 0] rfl

/-- Claim C7 (amended): the servo offsets never influence the raw actuator
path — for every two hat states and all arguments the `set_servos` event
traces coincide — and whenever each argument already fits a signed byte the
transmitted frame is exactly `[SET_SERVOS, s1, s2, s3, 0, 0, 0, 0, 0]`
(out-of-range arguments are wrapped by the numpy int8 cast). -/
theorem set_servos_no_offsets_C7 :
    ∀ (h h' : HatState) (r : List ℕ) (s1 s2 s3 : ℤ),
      (set_servos h r s1 s2 s3).1 = (set_servos h' r s1 s2 s3).1 ∧
      (r.length = 9 → -128 ≤ s1 → s1 ≤ 127 → -128 ≤ s2 → s2 ≤ 127 →
        -128 ≤ s3 → s3 ≤ 127 →
        (set_servos h r s1 s2 s3).1 =
          [Event.sleep 1000, Event.xfer [5, s1, s2, s3, 0, 0, 0, 0, 0],
           Event.sleep 50000]) := by
  intro h h' r s1 s2 s3
  constructor
  · rcases r with _ | ⟨b0, _ | ⟨b1, _ | ⟨b2, rest⟩⟩⟩ <;> rfl
  · intro hr h1l h1u h2l h2u h3l h3u
    obtain ⟨b0, b1, b2, rest, rfl⟩ :
        ∃ b0 b1 b2 rest, r = b0 :: b1 :: b2 :: rest := by
      match r, hr with
      | a :: b :: c :: t, _ => exact ⟨a, b, c, t, rfl⟩
    rw [set_servos_def, int8OfInt_eq_self h1l h1u, int8OfInt_eq_self h2l h2u,
      int8OfInt_eq_self h3l h3u]
    have h5 : int8OfInt SendCommand.SET_SERVOS = 5 := by decide
    rw [h5]
    have hpad : right_pad_array [5, s1, s2, s3] 9 =
        .ok [5, s1, s2, s3, 0, 0, 0, 0, 0] := by
      unfold right_pad_array
      rw [if_pos (by norm_num)]
      simp only [List.map_cons, List.map_nil]
      rw [int8OfInt_eq_self (by norm_num) (by norm_num),
        int8OfInt_eq_self h1l h1u, int8OfInt_eq_self h2l h2u,
        int8OfInt_eq_self h3l h3u]
      rfl
    simp only [trancieve, hpad, save_buttons_cons, afterSettle]
    rfl

/-- Counterexample for C7 as frozen: at arguments `(150, 150, 150)` (the
values `hover` itself uses) the transmitted frame is identical for two
different offset triples, but it is not `[SET_SERVOS, 150, 150, 150, …]` —
the numpy int8 cast wraps each 150 to -106. -/
theorem set_servos_wrap_counterexample_C7 :
    (set_servos (initHat (0, 0, 0)) [0, 0, 0, 0, 0, 0, 0, 0, 0]
        150 150 150).1 =
      (set_servos (initHat (1, 2, 3)) [0, 0, 0, 0, 0, 0, 0, 0, 0]
        150 150 150).1 ∧
    (set_servos (initHat (0, 0, 0)) [0, 0, 0, 0, 0, 0, 0, 0, 0]
        150 150 150).1 ≠
      [Event.sleep 1000, Event.xfer [5, 150, 150, 150, 0, 0, 0, 0, 0],
       Event.sleep 50000] ∧
    (set_servos (initHat (0, 0, 0)) [0, 0, 0, 0, 0, 0, 0, 0, 0]
        150 150 150).1 =
      [Event.sleep 1000, Event.xfer [5, -106, -106, -106, 0, 0, 0, 0, 0],
       Event.sleep 50000] := by
  refine ⟨rfl, ?_, rfl⟩
  decide

/-- Witness for C7 at in-range arguments and two offset triples. -/
theorem set_servos_no_offsets_C7_witness :
    (set_servos (initHat (2, 3, 4)) [0, 0, 0, 0, 0, 0, 0, 0, 0] 10 20 30).1 =
      (set_servos (initHat (0, 0, 0)) [0, 0, 0, 0, 0, 0, 0, 0, 0]
        10 20 30).1 ∧
    (set_servos (initHat (2, 3, 4)) [0, 0, 0, 0, 0, 0, 0, 0, 0] 10 20 30).1 =
      [Event.sleep 1000, Event.xfer [5, 10, 20, 30, 0, 0, 0, 0, 0],
       Event.sleep 50000] :=
  ⟨(set_servos_no_offsets_C7 (initHat (2, 3, 4)) (initHat (0, 0, 0))
      [0, 0, 0, 0, 0, 0, 0, 0, 0] 10 20 30).1,
   (set_servos_no_offsets_C7 (initHat (2, 3, 4)) (initHat (0, 0, 0))
      [0, 0, 0, 0, 0, 0, 0, 0, 0] 10 20 30).2 rfl (by norm_num) (by norm_num)
      (by norm_num) (by norm_num) (by norm_num) (by norm_num)⟩

/-- Claim C8: for every 9-byte reply the stored joystick values are the
signed reinterpretation of bytes 1 and 2 divided by 100, and raw byte 200
at the X position decodes to -0.56. -/
theorem joystick_decode_C8 :
    (∀ (h : HatState) (r : List ℕ), r.length = 9 →
      ∃ h', _save_buttons h r = .ok h' ∧
        h'.joy_x = (if r.getD 1 0 < 128 then (r.getD 1 0 : ℚ)
                    else (r.getD 1 0 : ℚ) - 256) / 100 ∧
        h'.joy_y = (if r.getD 2 0 < 128 then (r.getD 2 0 : ℚ)
                    else (r.getD 2 0 : ℚ) - 256) / 100) ∧
    (∀ h : HatState, ∃ h',
      _save_buttons h [0, 200, 0, 0, 0, 0, 0, 0, 0] = .ok h' ∧
      h'.joy_x = -0.56) := by
  constructor
  · intro h r hr
    obtain ⟨b0, b1, b2, rest, rfl⟩ :
        ∃ b0 b1 b2 rest, r = b0 :: b1 :: b2 :: rest := by
      match r, hr with
      | a :: b :: c :: t, _ => exact ⟨a, b, c, t, rfl⟩
    refine ⟨_, save_buttons_cons h b0 b1 b2 rest, ?_, ?_⟩
    · show (_uint8_to_int8 b1 : ℚ) / 100 = _
      simp only [List.getD_cons_succ, List.getD_cons_zero, _uint8_to_int8]
      split_ifs <;> push_cast <;> ring
    · show (_uint8_to_int8 b2 : ℚ) / 100 = _
      simp only [List.getD_cons_succ, List.getD_cons_zero, _uint8_to_int8]
      split_ifs <;> push_cast <;> ring
  · intro h
    refine ⟨_, save_buttons_cons h 0 200 0 [0, 0, 0, 0, 0, 0], ?_⟩
    show (_uint8_to_int8 200 : ℚ) / 100 = -0.56
    have h200 : _uint8_to_int8 200 = -56 := by decide
    rw [h200]
    norm_num

/-- Witness for C8 at the reply `[0, 200, 0, 0, 0, 0, 0, 0, 0]`. -/
theorem joystick_decode_C8_witness :
    (∃ h', _save_buttons (initHat (0, 0, 0))
        [0, 200, 0, 0, 0, 0, 0, 0, 0] = .ok h' ∧
      h'.joy_x =
        (if ([0, 200, 0, 0, 0, 0, 0, 0, 0] : List ℕ).getD 1 0 < 128
         then (([0, 200, 0, 0, 0, 0, 0, 0, 0] : List ℕ).getD 1 0 : ℚ)
         else (([0, 200, 0, 0, 0, 0, 0, 0, 0] : List ℕ).getD 1 0 : ℚ) - 256)
          / 100 ∧
      h'.joy_y =
        (if ([0, 200, 0, 0, 0, 0, 0, 0, 0] : List ℕ).getD 2 0 < 128
         then (([0, 200, 0, 0, 0, 0, 0, 0, 0] : List ℕ).getD 2 0 : ℚ)
         else (([0, 200, 0, 0, 0, 0, 0, 0, 0] : List ℕ).getD 2 0 : ℚ) - 256)
          / 100) ∧
    (∃ h', _save_buttons (initHat (0, 0, 0))
        [0, 200, 0, 0, 0, 0, 0, 0, 0] = .ok h' ∧ h'.joy_x = -0.56) :=
  ⟨joystick_decode_C8.1 (initHat (0, 0, 0)) [0, 200, 0, 0, 0, 0, 0, 0, 0] rfl,
   joystick_decode_C8.2 (initHat (0, 0, 0))⟩

/-- Claim C9: both button flags start false, after every successful
exchange the menu flag holds iff reply byte 0 is the `MENU` code 1 and the
joystick flag iff it is the `JOYSTICK` code 2, and no reachable hat state
has both flags true. -/
theorem button_flags_C9 :
    (∀ off : ℤ × ℤ × ℤ,
      (initHat off).menu_btn = false ∧ (initHat off).joy_btn = false) ∧
    (∀ (h h' : HatState) (r : List ℕ), _save_buttons h r = .ok h' →
      ((h'.menu_btn = true ↔ r.getD 0 0 = 1) ∧
       (h'.joy_btn = true ↔ r.getD 0 0 = 2))) ∧
    (∀ h : HatState, Reachable h →
      ¬(h.menu_btn = true ∧ h.joy_btn = true)) := by
  refine ⟨fun off => ⟨rfl, rfl⟩, ?_, ?_⟩
  · intro h h' r hok
    obtain ⟨hm, hj⟩ := save_buttons_flags hok
    rw [hm, hj]
    simp [beq_iff_eq]
  · intro h hreach
    induction hreach with
    | init off => simp [initHat]
    | exchange r _ hok ih =>
      obtain ⟨hm, hj⟩ := save_buttons_flags hok
      rw [hm, hj]
      rintro ⟨h1, h2⟩
      rw [beq_iff_eq] at h1 h2
      omega
    | calibrate s1 s2 s3 _ ih =>
      exact ih

/-- Witness for C9: the initial state, and the concrete reachable state
after an exchange whose reply byte 0 is the `MENU` code. -/
theorem button_flags_C9_witness :
    ((initHat (0, 0, 0)).menu_btn = false ∧
      (initHat (0, 0, 0)).joy_btn = false) ∧
    ((stateAfterMenu.menu_btn = true ↔
        ([1, 0, 0, 0, 0, 0, 0, 0, 0] : List ℕ).getD 0 0 = 1) ∧
     (stateAfterMenu.joy_btn = true ↔
        ([1, 0, 0, 0, 0, 0, 0, 0, 0] : List ℕ).getD 0 0 = 2)) ∧
    ¬(stateAfterMenu.menu_btn = true ∧ stateAfterMenu.joy_btn = true) :=
  ⟨button_flags_C9.1 (0, 0, 0),
   button_flags_C9.2.1 (initHat (0, 0, 0)) stateAfterMenu
     [1, 0, 0, 0, 0, 0, 0, 0, 0] rfl,
   button_flags_C9.2.2 stateAfterMenu
     (Reachable.exchange [1, 0, 0, 0, 0, 0, 0, 0, 0]
       (Reachable.init (0, 0, 0)) rfl)⟩
